import Mathlib

/-!
Shallow embedding of the simulation core of the js13kGames entry `back-forth`:
the SAT collision detector (`source/Collision.js`), the color transition
engine (`source/ColorSchemes.js`), the rotating entities and the Bug
(`Arrows.js` / `Bug.js`), the score handlers of the game orchestrator
(`Game.js`) and the entity factories (`Bug.js`, `Arrows.js`, `ScoreBar.js`,
`Clock.js`).  JavaScript numbers are modelled as exact rationals.
-/

namespace BackForth

/-- JavaScript `Math.sign` on rationals. -/

def qSign (x : ℚ) : ℚ :=
  if 0 < x then 1 else if x < 0 then -1 else 0

/-- Truncation toward zero, the rounding used by the JavaScript `%` operator. -/

def qTrunc (x : ℚ) : ℤ :=
  if 0 ≤ x then ⌊x⌋ else -⌊-x⌋

/-- JavaScript remainder `a % b` (sign follows the dividend). -/

def jsMod (a b : ℚ) : ℚ :=
  a - b * (qTrunc (a / b) : ℚ)

/-- Mathematical modulus with nonnegative result, used to measure angular
distances when stating properties about the convergence code. -/

def mathMod (a b : ℚ) : ℚ :=
  a - b * (⌊a / b⌋ : ℚ)

/-- Unsigned angular distance between two angles in degrees. -/

def angDist (a b : ℚ) : ℚ :=
  min (mathMod (a - b) 360) (360 - mathMod (a - b) 360)

/-- The normalization performed at the top of every `update` in the source:
`rotationDeg %= 360; if (rotationDeg < 0) rotationDeg += 360`. -/

def normalizeDeg (r : ℚ) : ℚ :=
  if jsMod r 360 < 0 then jsMod r 360 + 360 else jsMod r 360

/-! ## Collision detector (`source/Collision.js`) -/

/-- A 2-D point (or axis vector), the `{x, y}` records of `Collision.js`. -/

abbrev Point := ℚ × ℚ

/-- The first half of `Shape.prototype.getNormals`: for every edge from
`crt = p[i]` to `nxt = p[i+1] || p[0]` the normal `{x: nxt.y-crt.y,
y: -(nxt.x-crt.x)}`.  The source divides both components by the edge length
`Math.sqrt(x1*x1+y1*y1)`; `checkCollision` only ever compares the two
polygons' projections onto one and the same axis, and rescaling an axis by a
positive factor rescales both projection intervals by exactly that factor
(`axisCheck_smul` below), so for polygons with non-zero edge lengths the
normalization cannot change the boolean result and is omitted here to stay in
exact arithmetic. -/

def baseNormals (pts : List Point) : List Point :=
  (List.range pts.length).map (fun i =>
    ((pts.getD ((i + 1) % pts.length) (0, 0)).2 - (pts.getD i (0, 0)).2,
     -((pts.getD ((i + 1) % pts.length) (0, 0)).1 - (pts.getD i (0, 0)).1)))

/-- `Shape.prototype.getNormals`: `normals[i]` holds the edge normal and
`normals[n+i]` its negation, so the final array is the base normals followed
by their negations. -/

def getNormals (pts : List Point) : List Point :=
  baseNormals pts ++ (baseNormals pts).map (fun v => (-v.1, -v.2))

/-- The edge vectors `nxt - crt` of a polygon, used to state the claim's
"non-zero edge lengths" precondition. -/

def edgeVectors (pts : List Point) : List Point :=
  (List.range pts.length).map (fun i =>
    ((pts.getD ((i + 1) % pts.length) (0, 0)).1 - (pts.getD i (0, 0)).1,
     (pts.getD ((i + 1) % pts.length) (0, 0)).2 - (pts.getD i (0, 0)).2))

/-- The dot products of all polygon points with an axis, the values folded
over by `Shape.prototype.project`.  The `Shape` offsets `this.x`, `this.y`
added to each point are 0 on the only call path (`SATCollision` constructs
both shapes without offsets). -/

def projections (pts : List Point) (v : Point) : List ℚ :=
  pts.map (fun p => p.1 * v.1 + p.2 * v.2)

/-- `Shape.prototype.project`: the `{min, max}` projection interval.  The
source seeds the fold with `Infinity`/`-Infinity`; for a nonempty point list
that equals seeding with the first projection, as done here (the `headD`
default 0 is reached only for the empty polygon, which no caller produces). -/

def project (pts : List Point) (v : Point) : ℚ × ℚ :=
  ((projections pts v).foldl min ((projections pts v).headD 0),
   (projections pts v).foldl max ((projections pts v).headD 0))

/-- The per-axis test inside `Shape.prototype.checkCollision`:
`((p1.min <= p2.max) && (p1.max >= p2.min)) ||
 (p2.min >= p1.max) && (p2.max >= p1.min)`. -/

def axisCheck (P Q : List Point) (v : Point) : Bool :=
  (decide ((project P v).1 ≤ (project Q v).2) &&
   decide ((project P v).2 ≥ (project Q v).1)) ||
  (decide ((project Q v).1 ≥ (project P v).2) &&
   decide ((project Q v).2 ≥ (project P v).1))

/-- `Shape.prototype.checkCollision`:
`me.normals.concat(shape.normals).every(...)`. -/

def checkCollision (P Q : List Point) : Bool :=
  (getNormals P ++ getNormals Q).all (axisCheck P Q)

/-- `SATCollision(poly1, poly2)` from `Collision.js`. -/

def SATCollision (poly1 poly2 : List Point) : Bool :=
  checkCollision poly1 poly2

/-- The overlap-or-touch predicate named by the specification:
`p1.min <= p2.max && p1.max >= p2.min`. -/

def projOverlap (P Q : List Point) (v : Point) : Prop :=
  (project P v).1 ≤ (project Q v).2 ∧ (project Q v).1 ≤ (project P v).2

instance (P Q : List Point) (v : Point) : Decidable (projOverlap P Q v) :=
  inferInstanceAs (Decidable (_ ∧ _))

/-! ## Color transition engine (`source/ColorSchemes.js`) -/

/-- Value of one hex digit, upper or lower case, as accepted by the
JavaScript `parseInt(s, 16)`. -/

def hexDigitVal (c : Char) : Option ℕ :=
  if '0' ≤ c ∧ c ≤ '9' then some (c.toNat - '0'.toNat)
  else if 'a' ≤ c ∧ c ≤ 'f' then some (c.toNat - 'a'.toNat + 10)
  else if 'A' ≤ c ∧ c ≤ 'F' then some (c.toNat - 'A'.toNat + 10)
  else none

/-- Two hex digits, `parseInt(slice, 16)` of one channel. -/

def parseHexByte (c1 c2 : Char) : Option ℕ := do
  let h ← hexDigitVal c1
  let l ← hexDigitVal c2
  pure (16 * h + l)

/-- The three channel values `parseInt(s.slice(1,3),16)`,
`parseInt(s.slice(3,5),16)`, `parseInt(s.slice(5,7),16)` of a `"#rrggbb"`
color.  `none` models the `NaN`s the source would produce on malformed input
(every color the program handles is a 7-character `#rrggbb` literal). -/

def parseColor (s : String) : Option (ℕ × ℕ × ℕ) :=
  match s.toList with
  | ['#', r1, r2, g1, g2, b1, b2] => do
      let r ← parseHexByte r1 r2
      let g ← parseHexByte g1 g2
      let b ← parseHexByte b1 b2
      pure (r, g, b)
  | _ => none

/-- One lower-case hex digit, as produced by `Number.prototype.toString(16)`. -/

def hexDigitChar (n : ℕ) : Char :=
  if n < 10 then Char.ofNat ('0'.toNat + n)
  else Char.ofNat ('a'.toNat + (n - 10))

/-- `f[i].toString(16)`, zero-padded to two digits as the source does
(`if(r.length == 1) r = "0"+r`); channel values stay in `[0, 255]`. -/

def renderHexByte (n : ℕ) : List Char :=
  if n < 16 then ['0', hexDigitChar n]
  else [hexDigitChar (n / 16), hexDigitChar (n % 16)]

/-- The string `"#"+r+g+b` yielded by `transitionColor`. -/

def renderColor (c : ℕ × ℕ × ℕ) : String :=
  ⟨'#' :: (renderHexByte c.1 ++ renderHexByte c.2.1 ++ renderHexByte c.2.2)⟩

/-- One execution of the per-channel body of the `transitionColor` loop:
`dir = Math.sign(t[i]-f[i]); f[i] += step*dir` with the overshoot clamped to
the target (`step` is the constant 2).  Channels live in ℕ: the only
transiently negative JavaScript value, `1 - 2 = -1` (when `f[i] = 1`,
`t[i] = 0`), is immediately clamped to `t[i] = 0`, which equals the truncated
subtraction used here. -/

def chanStep (f t : ℕ) : ℕ :=
  if f < t then min (f + 2) t
  else if t < f then max (f - 2) t
  else f

/-- `if(dir == 0) done[i] = true` — the done flag is set, never cleared. -/

def chanDone (f t : ℕ) (d : Bool) : Bool :=
  d || decide (f = t)

/-- The `while(!done[0] || !done[1] || !done[2])` loop of `transitionColor`:
each iteration steps all three channels, updates the done flags, and yields
the current triple.  `fuel` bounds the number of iterations; the channel
distances (at most 255, halved step 2) bound the real iteration count by 130,
so any fuel of at least 131 computes the entire yielded sequence. -/

def transitionColorAux : ℕ → ℕ × ℕ × ℕ → ℕ × ℕ × ℕ → Bool × Bool × Bool →
    List (ℕ × ℕ × ℕ)
  | 0, _, _, _ => []
  | fuel + 1, f, t, d =>
      if d.1 && d.2.1 && d.2.2 then []
      else
        (chanStep f.1 t.1, chanStep f.2.1 t.2.1, chanStep f.2.2 t.2.2) ::
          transitionColorAux fuel
            (chanStep f.1 t.1, chanStep f.2.1 t.2.1, chanStep f.2.2 t.2.2) t
            (chanDone f.1 t.1 d.1, chanDone f.2.1 t.2.1 d.2.1,
             chanDone f.2.2 t.2.2 d.2.2)

/-- `transitionColor(from, to)`: the full finite sequence of hex colors the
generator yields, or `none` on unparseable input. -/

def transitionColor (fromHex toHex : String) : Option (List String) := do
  let f ← parseColor fromHex
  let t ← parseColor toHex
  pure ((transitionColorAux 512 f t (false, false, false)).map renderColor)

/-- The specification's description of one channel step: unchanged once at
the target, otherwise moved by exactly 2 toward the target with the overshoot
clamped. -/

def chanMoveSpec (t cur next : ℕ) : Prop :=
  (cur = t ∧ next = t) ∨ (cur < t ∧ next = min (cur + 2) t) ∨
    (t < cur ∧ next = max (cur - 2) t)

instance (t cur next : ℕ) : Decidable (chanMoveSpec t cur next) :=
  inferInstanceAs (Decidable (_ ∨ _ ∨ _))

/-- The specification's channel-step condition, threaded along a whole yielded
sequence starting from the triple `prev`. -/

def chainMove (t : ℕ × ℕ × ℕ) : ℕ × ℕ × ℕ → List (ℕ × ℕ × ℕ) → Prop
  | _, [] => True
  | prev, x :: rest =>
      chanMoveSpec t.1 prev.1 x.1 ∧ chanMoveSpec t.2.1 prev.2.1 x.2.1 ∧
        chanMoveSpec t.2.2 prev.2.2 x.2.2 ∧ chainMove t x rest

instance instDecChainMove (t : ℕ × ℕ × ℕ) :
    (p : ℕ × ℕ × ℕ) → (l : List (ℕ × ℕ × ℕ)) → Decidable (chainMove t p l)
  | _, [] => inferInstanceAs (Decidable True)
  | _, x :: rest =>
      have := instDecChainMove t x rest
      inferInstanceAs (Decidable (_ ∧ _ ∧ _ ∧ _))

/-! ## Rotating entities (`Arrows.js`, `Bug.js`) -/

/-- The simulation-relevant state of one arrow sprite (rendering-only fields
`x`, `y`, `width`, `height`, `anchor` and the radians mirror `rotation` are
omitted). -/

structure ArrowState where
  rotationDeg : ℚ
  rotationSpeed : ℚ
  idleDeg : ℚ
  idleDirection : ℚ
  direction : ℚ

/-- `arrow1.updateIdleDeg`: `360/60 * date.getMinutes()`. -/

def arrow1IdleDeg (mins : ℕ) : ℚ := 360 / 60 * mins

/-- `arrow2.updateIdleDeg`:
`360/12 * (hours % 12) + 360/60/12 * mins`. -/

def arrow2IdleDeg (hours mins : ℕ) : ℚ :=
  360 / 12 * ((hours % 12 : ℕ) : ℚ) + 360 / 60 / 12 * mins

/-- `shortest_dir` of the converging branch:
`Math.sign(idleDeg - rotationDeg)`, negated when
`Math.abs(idleDeg - rotationDeg) > 180`. -/

def convergeDir (r d : ℚ) : ℚ :=
  if |d - r| > 180 then -qSign (d - r) else qSign (d - r)

/-- The first conditional of the converging branch: when `rotationDeg >
idleDeg`, step by `shortest_dir * 2` and clamp an undershoot to `idleDeg`. -/

def convergeFirst (r d : ℚ) : ℚ :=
  if r > d then (if r + convergeDir r d * 2 < d then d else r + convergeDir r d * 2)
  else r

/-- The full converging step shared verbatim by `arrow1.update` (reused by
`arrow2.update`) and duplicated in `bug.update`: the second conditional tests
the value left by the first one. -/

def convergeStep (r d : ℚ) : ℚ :=
  if convergeFirst r d < d then
    (if convergeFirst r d + convergeDir r d * 2 > d then d
     else convergeFirst r d + convergeDir r d * 2)
  else convergeFirst r d

/-- `arrow1.update` (arrow2 reuses the very same function object).  `newIdle`
is the value the entity's `updateIdleDeg` recomputes from the wall clock at
the top of the game-over branch (`arrow1IdleDeg mins` for arrow1,
`arrow2IdleDeg hours mins` for arrow2); the radians mirror `this.rotation` is
rendering-only and omitted. -/

def arrowUpdate (st : ArrowState) (gameOver : Bool) (newIdle : ℚ) : ArrowState :=
  if gameOver then
    { st with
      idleDeg := newIdle
      rotationSpeed := 1
      direction := st.idleDirection
      rotationDeg := convergeStep (normalizeDeg st.rotationDeg) newIdle }
  else
    { st with rotationDeg :=
        normalizeDeg st.rotationDeg + st.rotationSpeed * st.direction }

/-- The two candidates of `bug.updateIdleDeg`: `p1`, the linear midpoint of
the two arrow idle angles, after `p1 %= 360`. -/

def midCandidate (a1 a2 : ℚ) : ℚ :=
  jsMod (min a1 a2 + |a1 - a2| / 2) 360

/-- The second candidate `p2 = p1 + 180`, after `p2 %= 360`. -/

def oppCandidate (a1 a2 : ℚ) : ℚ :=
  jsMod (min a1 a2 + |a1 - a2| / 2 + 180) 360

/-- `bug.updateIdleDeg`: pick `p1` when
`Math.abs(p1 - arrow1.idleDeg) > Math.abs(p2 - arrow1.idleDeg)`, else `p2`. -/

def bugUpdateIdleDeg (a1 a2 : ℚ) : ℚ :=
  if |midCandidate a1 a2 - a1| > |oppCandidate a1 a2 - a1| then midCandidate a1 a2
  else oppCandidate a1 a2

/-- The Bug's animation state (`currentState` strings "idle" / "jump"). -/

inductive BugAnim
  | idle
  | jump
deriving DecidableEq

/-- Identifies which arrow `isOverArrow` pushed into its result array. -/

inductive ArrowId
  | one
  | two
deriving DecidableEq

/-- The simulation-relevant state of the bug sprite (rendering-only fields
are omitted; `anchorY` is `anchor.y`). -/

structure BugState where
  rotationDeg : ℚ
  idleDeg : ℚ
  direction : ℚ
  rotationSpeed : ℚ
  isFlying : ℕ
  gravity : ℚ
  jumpSpeed : ℚ
  anchorY : ℚ
  groundedAnchorY : ℚ
  currentState : BugAnim
  wereOverArrow : Bool

/-- The game fields `bug.update` reads: `game.gameOver` and the two arrows. -/

structure BugCtx where
  gameOver : Bool
  arrow1 : ArrowState
  arrow2 : ArrowState

/-- The window test of `bug.isOverArrow` for one arrow, with
`speed = Math.max(game.arrow1.rotationSpeed, game.arrow2.rotationSpeed) +
this.rotationSpeed` (note: the maximum of the two arrow speeds, computed once
and used for both arrows). -/

def overWindow (bug : BugState) (a1 a2 : ArrowState) (a : ArrowState) : Bool :=
  decide (a.rotationDeg >
    bug.rotationDeg - (max a1.rotationSpeed a2.rotationSpeed + bug.rotationSpeed)) &&
  decide (a.rotationDeg <
    bug.rotationDeg + (max a1.rotationSpeed a2.rotationSpeed + bug.rotationSpeed))

/-- `bug.isOverArrow`: while airborne (`isFlying` truthy), collect each arrow
whose rotation angle lies strictly inside the window. -/

def isOverArrow (bug : BugState) (a1 a2 : ArrowState) : List ArrowId :=
  if bug.isFlying ≠ 0 then
    (if overWindow bug a1 a2 a1 then [ArrowId.one] else []) ++
      (if overWindow bug a1 a2 a2 then [ArrowId.two] else [])
  else []

/-- The angular part of `bug.update`: top-of-update normalization, then
either the converging branch (recompute `idleDeg` from the arrows, step
toward it, and on exact arrival reset animation state and direction) or the
spinning step `rotationDeg += rotationSpeed * direction`. -/

def bugConverge (st : BugState) (c : BugCtx) : BugState :=
  if c.gameOver then
    (if convergeStep (normalizeDeg st.rotationDeg)
          (bugUpdateIdleDeg c.arrow1.idleDeg c.arrow2.idleDeg) =
        bugUpdateIdleDeg c.arrow1.idleDeg c.arrow2.idleDeg then
      { st with
        rotationDeg := convergeStep (normalizeDeg st.rotationDeg)
          (bugUpdateIdleDeg c.arrow1.idleDeg c.arrow2.idleDeg)
        idleDeg := bugUpdateIdleDeg c.arrow1.idleDeg c.arrow2.idleDeg
        currentState := BugAnim.idle
        direction := 1 }
    else
      { st with
        rotationDeg := convergeStep (normalizeDeg st.rotationDeg)
          (bugUpdateIdleDeg c.arrow1.idleDeg c.arrow2.idleDeg)
        idleDeg := bugUpdateIdleDeg c.arrow1.idleDeg c.arrow2.idleDeg })
  else
    { st with rotationDeg :=
        normalizeDeg st.rotationDeg + st.rotationSpeed * st.direction }

/-- The vertical physics of `bug.update`: `if(jumpSpeed) jumpSpeed+=gravity;
anchor.y += jumpSpeed;` and the landing clamp, which resets the double-jump
budget and (only while the round is active) the animation state. -/

def bugPhysics (st : BugState) (gameOver : Bool) : BugState :=
  if st.anchorY + (if st.jumpSpeed ≠ 0 then st.jumpSpeed + st.gravity
      else st.jumpSpeed) < st.groundedAnchorY then
    { st with
      anchorY := st.groundedAnchorY
      jumpSpeed := 0
      isFlying := 0
      currentState := if gameOver then st.currentState else BugAnim.idle }
  else
    { st with
      anchorY := st.anchorY + (if st.jumpSpeed ≠ 0 then st.jumpSpeed + st.gravity
        else st.jumpSpeed)
      jumpSpeed := if st.jumpSpeed ≠ 0 then st.jumpSpeed + st.gravity
        else st.jumpSpeed }

/-- The bug state right before the overlap check of `bug.update`. -/

def bugKinematics (st : BugState) (c : BugCtx) : BugState :=
  bugPhysics (bugConverge st c) c.gameOver

/-- `bug.update`: kinematics, then the edge-triggered overlap block
(`if(arrows.length){ if(!this.wereOverArrow) emit each; wereOverArrow=true }
else wereOverArrow=false`).  Returns the new state and the list of arrows for
which a `bug_overarrow` event was emitted this frame.  The animation-playing
calls are rendering-only and omitted. -/

def bugUpdate (st : BugState) (c : BugCtx) : BugState × List ArrowId :=
  if isOverArrow (bugKinematics st c) c.arrow1 c.arrow2 ≠ [] then
    ({ bugKinematics st c with wereOverArrow := true },
     if st.wereOverArrow then []
     else isOverArrow (bugKinematics st c) c.arrow1 c.arrow2)
  else
    ({ bugKinematics st c with wereOverArrow := false }, [])

/-- Concrete bug state used to exercise the overlap edge trigger: airborne
(`isFlying = 1`), hovering (zero jump speed and spin), not over an arrow on
the previous frame. -/

def c8Bug : BugState :=
  { rotationDeg := 0, idleDeg := 0, direction := 1, rotationSpeed := 0,
    isFlying := 1, gravity := -9/2000, jumpSpeed := 0, anchorY := 5,
    groundedAnchorY := 1, currentState := BugAnim.jump,
    wereOverArrow := false }

/-- Concrete context for the overlap edge trigger: round active, arrow1
directly under the bug, arrow2 far away. -/

def c8Ctx : BugCtx :=
  { gameOver := false,
    arrow1 :=
      { rotationDeg := 0, rotationSpeed := 1, idleDeg := 0,
        idleDirection := 1, direction := 1 },
    arrow2 :=
      { rotationDeg := 100, rotationSpeed := 9/5, idleDeg := 0,
        idleDirection := -1, direction := -1 } }

/-! ## Game orchestrator score handlers (`Game.js`) and color-scheme pool -/

/-- One named color scheme (`ColorSchemes.js`). -/

structure ColorScheme where
  background : String
  scorebar : String
  arrows : String
  clock : String
  numbers : String

/-- The scheme pool `[complete_darkness, blue, green, yellow, violet, red]`
(`const b = "#000000", w = "#ffffff"`; every non-background role defaults to
these). -/

def pool : List ColorScheme :=
  [⟨"#000000", "#000000", "#000000", "#000000", "#000000"⟩,
   ⟨"#0260E8", "#ffffff", "#000000", "#000000", "#000000"⟩,
   ⟨"#41B619", "#ffffff", "#000000", "#000000", "#000000"⟩,
   ⟨"#FFD600", "#ffffff", "#000000", "#000000", "#000000"⟩,
   ⟨"#6E36CA", "#ffffff", "#000000", "#000000", "#000000"⟩,
   ⟨"#F6522E", "#ffffff", "#000000", "#000000", "#000000"⟩]

/-- The do-while of the `scorebar_add` handler:
`do { idx++; idx %= ColorSchemes.length } while (idx == 0)`.  The loop body
re-runs only when the increment wrapped to 0, and then lands on
`1 % 6 = 1 ≠ 0`, so it runs at most twice; the definition unrolls it. -/

def advanceColorSchemeIdx (idx : ℕ) : ℕ :=
  if (idx + 1) % pool.length = 0 then ((idx + 1) % pool.length + 1) % pool.length
  else (idx + 1) % pool.length

/-- The game-orchestrator state the two `scorebar_add` subscriptions touch.
The live `transitionColorScheme` generator is modelled by the pair of scheme
indices it was constructed from (`ColorSchemes.transition(previous, next)`). -/

structure GameRampState where
  colorSchemeIdx : ℕ
  transition : Option (ℕ × ℕ)
  arrow1Speed : ℚ
  arrow2Speed : ℚ

/-- The first `scorebar_add` subscription of the `Game` constructor: on a
multiple-of-5 score, advance the scheme index (skipping 0) and start a
transition from the previous to the new scheme. -/

def onScoreAdd5 (score : ℕ) (g : GameRampState) : GameRampState :=
  if score % 5 = 0 then
    { g with
      colorSchemeIdx := advanceColorSchemeIdx g.colorSchemeIdx
      transition := some (g.colorSchemeIdx, advanceColorSchemeIdx g.colorSchemeIdx) }
  else g

/-- The second `scorebar_add` subscription: on a multiple-of-10 score, raise
both arrows' `rotationSpeed` by 0.1. -/

def onScoreAdd10 (score : ℕ) (g : GameRampState) : GameRampState :=
  if score % 10 = 0 then
    { g with
      arrow1Speed := g.arrow1Speed + 1/10
      arrow2Speed := g.arrow2Speed + 1/10 }
  else g

/-- One `scorebar_add` event: `emit` runs the subscribers in registration
order (the multiple-of-5 handler was registered first). -/

def onScoreAdd (score : ℕ) (g : GameRampState) : GameRampState :=
  onScoreAdd10 score (onScoreAdd5 score g)

/-- `n` successive `scoreBar.add(1)` calls: the cumulative score of the k-th
event is k. -/

def runScoreEvents (g : GameRampState) (n : ℕ) : GameRampState :=
  (List.range n).foldl (fun g k => onScoreAdd (k + 1) g) g

/-! ## Entity factories (`Bug.js`, `Arrows.js`, `ScoreBar.js`, `Clock.js`) -/

/-- The clock fields the other factories read at construction. -/

structure ClockRef where
  radius : ℚ
  x : ℚ
  y : ℚ

/-- The owning-game reference an entity factory receives: the clock, and the
arrows' idle angles read by `bug.updateIdleDeg()` at the end of `Bug`. -/

structure GameRef where
  clock : ClockRef
  arrow1IdleDeg : ℚ
  arrow2IdleDeg : ℚ

/-- The factory `Bug(game, animations)`: `if(!game) throw new Error("game is
not defined")`, else build the sprite, size it from the clock radius
(`size = 1.4*radius/4`, `groundedAnchorY = (size+radius)/size`) and derive
the initial idle angle from the arrows.  The absent/falsy `game` argument is
modelled as `none`; the thrown error as `Except.error` with the source's
message. -/

def Bug (game : Option GameRef) : Except String BugState :=
  match game with
  | none => Except.error "game is not defined"
  | some g =>
      Except.ok
        { rotationDeg := 0
          idleDeg := bugUpdateIdleDeg g.arrow1IdleDeg g.arrow2IdleDeg
          direction := 1
          rotationSpeed := 1
          isFlying := 0
          gravity := -9/2000
          jumpSpeed := 0
          anchorY := (7/5 * g.clock.radius / 4 + g.clock.radius) /
            (7/5 * g.clock.radius / 4)
          groundedAnchorY := (7/5 * g.clock.radius / 4 + g.clock.radius) /
            (7/5 * g.clock.radius / 4)
          currentState := BugAnim.idle
          wereOverArrow := false }

/-- The factory `Arrows(game)`: the same guard, then two arrow sprites whose
idle and initial rotation angles come from the wall clock (`mins`, `hours`
model `new Date()`), with speeds 1 / 1.8 and idle directions 1 / -1. -/

def Arrows (game : Option GameRef) (mins hours : ℕ) :
    Except String (ArrowState × ArrowState) :=
  match game with
  | none => Except.error "game is not defined"
  | some _ =>
      Except.ok
        ({ rotationDeg := arrow1IdleDeg mins, rotationSpeed := 1,
           idleDeg := arrow1IdleDeg mins, idleDirection := 1, direction := 1 },
         { rotationDeg := arrow2IdleDeg hours mins, rotationSpeed := 9/5,
           idleDeg := arrow2IdleDeg hours mins, idleDirection := -1,
           direction := -1 })

/-- The score/high-score state of the score bar. -/

structure ScoreBarState where
  score : ℕ
  hiScore : ℕ

/-- The factory `ScoreBar(game)`: the same guard, then
`hiScore = getStoreItem("hiScore") || 0` (the stored value is passed in). -/

def ScoreBar (game : Option GameRef) (storedHiScore : Option ℕ) :
    Except String ScoreBarState :=
  match game with
  | none => Except.error "game is not defined"
  | some _ => Except.ok { score := 0, hiScore := storedHiScore.getD 0 }

/-- The clock state set up by `Clock(game, x, y, radius)` through
`clock.resize(radius).reposition(x, y)`. -/

structure ClockState where
  x : ℚ
  y : ℚ
  radius : ℚ
  minRadius : ℚ
  maxRadius : ℚ
  scaleSpeed : ℚ
  numbersRadius : ℚ
  scaleUp : Bool
  hideNumbers : Bool
  numbersOpacity : ℚ

/-- The factory `Clock(game, x, y, radius = 100)`: unlike the other three
factories, `Clock.js` contains NO `if(!game) throw` guard, and its
construction path (`resize` + `reposition`) never reads `game` (which is
used only by rendering), so construction succeeds even without a game
reference. -/

def Clock (_game : Option GameRef) (x y radius : ℚ) : Except String ClockState :=
  Except.ok
    { x := x
      y := y
      radius := radius
      minRadius := radius
      maxRadius := radius * 3/2
      scaleSpeed := (radius * 3/2 - radius) / 30
      numbersRadius := 2 * radius
      scaleUp := false
      hideNumbers := false
      numbersOpacity := 1 }

/-! ## Theorems -/

theorem mathMod_eq_self {x : ℚ} (h0 : 0 ≤ x) (h1 : x < 360) :
    mathMod x 360 = x := by
  have : ⌊x / 360⌋ = 0 := by
    rw [Int.floor_eq_zero_iff]
    constructor
    · positivity
    · rw [div_lt_one (by norm_num)]; simpa using h1
  simp [mathMod, this]

theorem mathMod_add_cycle (x : ℚ) : mathMod (x + 360) 360 = mathMod x 360 := by
  have h : (x + 360) / 360 = x / 360 + 1 := by ring
  rw [mathMod, mathMod, h, Int.floor_add_one]
  push_cast
  ring

theorem mathMod_neg_eq {x : ℚ} (h0 : -360 ≤ x) (h1 : x < 0) :
    mathMod x 360 = x + 360 := by
  rw [← mathMod_add_cycle, mathMod_eq_self (by linarith) (by linarith)]

theorem jsMod_eq_self {x : ℚ} (h0 : 0 ≤ x) (h1 : x < 360) : jsMod x 360 = x := by
  have hq : qTrunc (x / 360) = ⌊x / 360⌋ := by
    unfold qTrunc
    rw [if_pos (by positivity)]
  unfold jsMod
  rw [hq]
  exact mathMod_eq_self h0 h1

theorem jsMod_nonneg_bounds {x : ℚ} (h0 : 0 ≤ x) :
    0 ≤ jsMod x 360 ∧ jsMod x 360 < 360 := by
  have hq : qTrunc (x / 360) = ⌊x / 360⌋ := by
    unfold qTrunc
    rw [if_pos (by positivity)]
  have hfl : (⌊x / 360⌋ : ℚ) ≤ x / 360 := Int.floor_le _
  have hfu : x / 360 < ⌊x / 360⌋ + 1 := Int.lt_floor_add_one _
  unfold jsMod
  rw [hq]
  constructor
  · nlinarith
  · nlinarith

theorem jsMod_abs_bounds (r : ℚ) : -360 < jsMod r 360 ∧ jsMod r 360 < 360 := by
  unfold jsMod qTrunc
  split_ifs with hpos
  · have hfl : (⌊r / 360⌋ : ℚ) ≤ r / 360 := Int.floor_le _
    have hfu : r / 360 < ⌊r / 360⌋ + 1 := Int.lt_floor_add_one _
    constructor <;> nlinarith
  · have hfl : (⌊-(r / 360)⌋ : ℚ) ≤ -(r / 360) := Int.floor_le _
    have hfu : -(r / 360) < ⌊-(r / 360)⌋ + 1 := Int.lt_floor_add_one _
    push_cast
    constructor <;> nlinarith

theorem normalizeDeg_bounds (r : ℚ) :
    0 ≤ normalizeDeg r ∧ normalizeDeg r < 360 := by
  have h := jsMod_abs_bounds r
  unfold normalizeDeg
  split_ifs with hneg
  · constructor <;> linarith [h.1, h.2]
  · constructor <;> linarith [h.2]

theorem normalizeDeg_eq_self {r : ℚ} (h0 : 0 ≤ r) (h1 : r < 360) :
    normalizeDeg r = r := by
  unfold normalizeDeg
  rw [jsMod_eq_self h0 h1, if_neg (by linarith)]

theorem foldl_min_map_mul (c : ℚ) (hc : 0 ≤ c) (l : List ℚ) : ∀ a : ℚ,
    (l.map (fun x => c * x)).foldl min (c * a) = c * l.foldl min a := by
  induction l with
  | nil => intro a; simp
  | cons x l ih =>
      intro a
      simp only [List.map_cons, List.foldl_cons]
      rw [← mul_min_of_nonneg _ _ hc, ih]

theorem foldl_max_map_mul (c : ℚ) (hc : 0 ≤ c) (l : List ℚ) : ∀ a : ℚ,
    (l.map (fun x => c * x)).foldl max (c * a) = c * l.foldl max a := by
  induction l with
  | nil => intro a; simp
  | cons x l ih =>
      intro a
      simp only [List.map_cons, List.foldl_cons]
      rw [← mul_max_of_nonneg _ _ hc, ih]

theorem headD_map_mul (c : ℚ) (l : List ℚ) :
    (l.map (fun x => c * x)).headD 0 = c * l.headD 0 := by
  cases l <;> simp

theorem projections_smul (pts : List Point) (v : Point) (c : ℚ) :
    projections pts (c * v.1, c * v.2) =
      (projections pts v).map (fun x => c * x) := by
  unfold projections
  rw [List.map_map]
  congr 1
  funext p
  simp only [Function.comp_apply]
  ring

theorem project_smul (pts : List Point) (v : Point) (c : ℚ) (hc : 0 ≤ c) :
    project pts (c * v.1, c * v.2) =
      (c * (project pts v).1, c * (project pts v).2) := by
  unfold project
  rw [projections_smul, headD_map_mul, foldl_min_map_mul c hc,
    foldl_max_map_mul c hc]

/-- Rescaling an axis by a positive factor (in particular, normalizing it by
its Euclidean length, as the source does) does not change the per-axis test. -/
theorem axisCheck_smul (P Q : List Point) (v : Point) (c : ℚ) (hc : 0 < c) :
    axisCheck P Q (c * v.1, c * v.2) = axisCheck P Q v := by
  unfold axisCheck
  rw [project_smul P v c hc.le, project_smul Q v c hc.le]
  simp [mul_le_mul_left hc]

/-- The specification's overlap predicate is likewise invariant under
positive rescaling of the axis, so stating C1 over the unnormalized edge
normals is equivalent to stating it over the unit normals the source
computes. -/
theorem projOverlap_smul (P Q : List Point) (v : Point) (c : ℚ) (hc : 0 < c) :
    (projOverlap P Q (c * v.1, c * v.2) ↔ projOverlap P Q v) := by
  unfold projOverlap
  rw [project_smul P v c hc.le, project_smul Q v c hc.le]
  constructor
  · rintro ⟨ha, hb⟩
    exact ⟨le_of_mul_le_mul_left ha hc, le_of_mul_le_mul_left hb hc⟩
  · rintro ⟨ha, hb⟩
    exact ⟨mul_le_mul_of_nonneg_left ha hc.le, mul_le_mul_of_nonneg_left hb hc.le⟩

theorem getNormals_neg_mem {pts : List Point} {v : Point}
    (h : v ∈ getNormals pts) : (-v.1, -v.2) ∈ getNormals pts := by
  unfold getNormals at h ⊢
  rcases List.mem_append.mp h with h1 | h1
  · exact List.mem_append.mpr (Or.inr (List.mem_map.mpr ⟨v, h1, rfl⟩))
  · rcases List.mem_map.mp h1 with ⟨u, hu, rfl⟩
    refine List.mem_append.mpr (Or.inl ?_)
    simpa using hu

theorem headD_map_neg (l : List ℚ) (h : l ≠ []) :
    (l.map (fun x => -x)).headD 0 = -(l.headD 0) := by
  cases l with
  | nil => exact absurd rfl h
  | cons x l => simp

theorem foldl_min_map_neg (l : List ℚ) : ∀ a : ℚ,
    (l.map (fun x => -x)).foldl min (-a) = -(l.foldl max a) := by
  induction l with
  | nil => intro a; simp
  | cons x l ih =>
      intro a
      simp only [List.map_cons, List.foldl_cons]
      rw [min_neg_neg, ih]

theorem foldl_max_map_neg (l : List ℚ) : ∀ a : ℚ,
    (l.map (fun x => -x)).foldl max (-a) = -(l.foldl min a) := by
  induction l with
  | nil => intro a; simp
  | cons x l ih =>
      intro a
      simp only [List.map_cons, List.foldl_cons]
      rw [max_neg_neg, ih]

theorem projections_neg (pts : List Point) (v : Point) :
    projections pts (-v.1, -v.2) = (projections pts v).map (fun x => -x) := by
  unfold projections
  rw [List.map_map]
  congr 1
  funext p
  simp only [Function.comp_apply]
  ring

theorem project_neg (pts : List Point) (v : Point) (h : pts ≠ []) :
    project pts (-v.1, -v.2) = (-(project pts v).2, -(project pts v).1) := by
  have hne : projections pts v ≠ [] := by
    unfold projections
    simpa using h
  unfold project
  rw [projections_neg, headD_map_neg _ hne, foldl_min_map_neg,
    foldl_max_map_neg]

/-- C1: for convex polygons with at least 3 points and non-zero edge lengths,
`SATCollision(A, B)` is `true` iff on every tested axis (the edge normals of
both polygons, both directions of each) the projection intervals of `A` and
`B` overlap or touch (`p1.min <= p2.max && p1.max >= p2.min`); a single axis
without overlap yields `false`.  The code's per-axis test has an extra
disjunct `(p2.min >= p1.max) && (p2.max >= p1.min)` that accepts an axis on
which `Q` lies strictly above `P`, but the axis list is closed under negation
and the negated axis then fails both disjuncts, so the overall boolean agrees
with the claim. -/
theorem satCollision_iff_all_axes (A B : List Point)
    (hA : 3 ≤ A.length) (hB : 3 ≤ B.length)
    (_hEA : ∀ e ∈ edgeVectors A, e ≠ ((0 : ℚ), (0 : ℚ)))
    (_hEB : ∀ e ∈ edgeVectors B, e ≠ ((0 : ℚ), (0 : ℚ))) :
    SATCollision A B = true ↔
      ∀ v ∈ getNormals A ++ getNormals B, projOverlap A B v := by
  have hA' : A ≠ [] := by
    intro h0
    rw [h0] at hA
    simp at hA
  have hB' : B ≠ [] := by
    intro h0
    rw [h0] at hB
    simp at hB
  unfold SATCollision checkCollision
  rw [List.all_eq_true]
  constructor
  · intro h v hv
    have hvneg : ((-v.1, -v.2) : Point) ∈ getNormals A ++ getNormals B := by
      rcases List.mem_append.mp hv with h1 | h1
      · exact List.mem_append.mpr (Or.inl (getNormals_neg_mem h1))
      · exact List.mem_append.mpr (Or.inr (getNormals_neg_mem h1))
    have h1 := h v hv
    have h2 := h _ hvneg
    unfold axisCheck at h1 h2
    rw [project_neg A v hA', project_neg B v hB'] at h2
    simp only [Bool.or_eq_true, Bool.and_eq_true, decide_eq_true_eq,
      ge_iff_le] at h1 h2
    unfold projOverlap
    rcases h1 with h1 | h1
    · exact ⟨h1.1, h1.2⟩
    · rcases h2 with h2 | h2
      · exact ⟨by linarith [h2.2], by linarith [h2.1]⟩
      · exact ⟨by linarith [h1.2, h2.1], by linarith [h1.1, h2.2]⟩
  · intro h v hv
    have hov := h v hv
    unfold projOverlap at hov
    unfold axisCheck
    simp only [Bool.or_eq_true, Bool.and_eq_true, decide_eq_true_eq,
      ge_iff_le]
    exact Or.inl ⟨hov.1, hov.2⟩

/-- Witness for C10's amended theorem at the lower-case color "#0260e8". -/
theorem satCollision_iff_all_axes_witness :
    (3 ≤ ([((0 : ℚ), (0 : ℚ)), (2, 0), (0, 2)] : List Point).length) ∧
    (3 ≤ ([((1 : ℚ), (1 : ℚ)), (3, 1), (1, 3)] : List Point).length) ∧
    (∀ e ∈ edgeVectors [((0 : ℚ), (0 : ℚ)), (2, 0), (0, 2)],
        e ≠ ((0 : ℚ), (0 : ℚ))) ∧
    (∀ e ∈ edgeVectors [((1 : ℚ), (1 : ℚ)), (3, 1), (1, 3)],
        e ≠ ((0 : ℚ), (0 : ℚ))) ∧
    (SATCollision [((0 : ℚ), (0 : ℚ)), (2, 0), (0, 2)]
        [((1 : ℚ), (1 : ℚ)), (3, 1), (1, 3)] = true ↔
      ∀ v ∈ getNormals [((0 : ℚ), (0 : ℚ)), (2, 0), (0, 2)] ++
          getNormals [((1 : ℚ), (1 : ℚ)), (3, 1), (1, 3)],
        projOverlap [((0 : ℚ), (0 : ℚ)), (2, 0), (0, 2)]
          [((1 : ℚ), (1 : ℚ)), (3, 1), (1, 3)] v) :=
  ⟨by decide, by decide, by norm_num [edgeVectors, List.range_succ],
   by norm_num [edgeVectors, List.range_succ],
   satCollision_iff_all_axes _ _ (by decide) (by decide)
     (by norm_num [edgeVectors, List.range_succ])
     (by norm_num [edgeVectors, List.range_succ])⟩

set_option maxRecDepth 40000 in
/-- C7: `transitionColor("#000000","#0260e8")` yields a finite sequence; each
step moves each channel by exactly 2 toward its target value `(2, 96, 232)`,
clamping on overshoot; every yielded triple stays between the endpoints
channel-wise; and the final yielded value is exactly `"#0260e8"`, after which
the sequence ends. -/
theorem transitionColor_black_to_blue :
    transitionColor "#000000" "#0260e8" =
      some ((transitionColorAux 512 (0, 0, 0) (2, 96, 232)
        (false, false, false)).map renderColor) ∧
    transitionColorAux 512 (0, 0, 0) (2, 96, 232) (false, false, false) ≠ [] ∧
    (((transitionColorAux 512 (0, 0, 0) (2, 96, 232)
        (false, false, false)).map renderColor).getLast? = some "#0260e8") ∧
    chainMove (2, 96, 232) (0, 0, 0)
      (transitionColorAux 512 (0, 0, 0) (2, 96, 232) (false, false, false)) ∧
    (∀ p ∈ transitionColorAux 512 (0, 0, 0) (2, 96, 232)
        (false, false, false), p.1 ≤ 2 ∧ p.2.1 ≤ 96 ∧ p.2.2 ≤ 232) := by
  refine ⟨rfl, ?_, ?_, ?_, ?_⟩ <;> decide

/-- A transition whose source equals its target yields the parsed triple
unchanged, exactly once. -/
theorem transitionColorAux_self (fuel : ℕ) (c : ℕ × ℕ × ℕ) :
    transitionColorAux (fuel + 2) c c (false, false, false) = [c] := by
  have hstep : ∀ f : ℕ, chanStep f f = f := by
    intro f
    unfold chanStep
    rw [if_neg (lt_irrefl f), if_neg (lt_irrefl f)]
  have hdone : ∀ f : ℕ, chanDone f f false = true := by
    intro f
    simp [chanDone]
  show transitionColorAux (fuel + 1 + 1) c c (false, false, false) = [c]
  rw [transitionColorAux]
  simp only [Bool.false_and, Bool.and_false, if_neg]
  rw [hstep, hstep, hstep, hdone, hdone, hdone]
  show (c.1, c.2.1, c.2.2) :: transitionColorAux (fuel + 1) _ c (true, true, true) = [c]
  rw [transitionColorAux]
  simp

/-- C10 (amended): `transitionColor(c, c)` yields exactly one value — the
canonical lower-case re-rendering of `c`'s channels — before the generator
reports done; the yielded sequence is never empty.  The yielded value equals
`c` itself exactly when `c` is already written in canonical lower case. -/
theorem transitionColor_same (s : String) (c : ℕ × ℕ × ℕ)
    (h : parseColor s = some c) :
    transitionColor s s = some [renderColor c] := by
  unfold transitionColor
  rw [h]
  show some ((transitionColorAux 512 c c (false, false, false)).map renderColor) = _
  rw [show (512 : ℕ) = 510 + 2 from rfl, transitionColorAux_self]
  rfl

theorem transitionColor_same_witness :
    parseColor "#0260e8" = some (2, 96, 232) ∧
      transitionColor "#0260e8" "#0260e8" = some [renderColor (2, 96, 232)] :=
  ⟨by decide, transitionColor_same "#0260e8" (2, 96, 232) (by decide)⟩

/-- C10 counterexample: on the upper-case pool color "#0260E8" the
self-transition yields the lower-case re-rendering `"#0260e8"`, which is not
equal to the input itself. -/
theorem transitionColor_same_counterexample :
    transitionColor "#0260E8" "#0260E8" = some ["#0260e8"] ∧
      ("#0260e8" : String) ≠ "#0260E8" := by
  constructor <;> decide

/-- C2 counterexample: with arrow idle angles 0 and 90 the two candidates are
the midpoint 45 and its opposite 225; the code sets the Bug's idleDeg to 225,
although 45 is the candidate closer to Arrow1's idle angle 0. -/
theorem bugUpdateIdleDeg_counterexample :
    midCandidate 0 90 = 45 ∧ oppCandidate 0 90 = 225 ∧
      bugUpdateIdleDeg 0 90 = 225 ∧ |(45 : ℚ) - 0| < |(225 : ℚ) - 0| := by
  have habs : |(0 : ℚ) - 90| = 90 := by
    rw [show (0 : ℚ) - 90 = -90 by norm_num, abs_neg,
      abs_of_nonneg (by norm_num : (0 : ℚ) ≤ 90)]
  have hm : midCandidate 0 90 = 45 := by
    unfold midCandidate
    rw [habs, show min (0 : ℚ) 90 + 90 / 2 = 45 by
      rw [min_eq_left (by norm_num)]; norm_num]
    exact jsMod_eq_self (by norm_num) (by norm_num)
  have ho : oppCandidate 0 90 = 225 := by
    unfold oppCandidate
    rw [habs, show min (0 : ℚ) 90 + 90 / 2 + 180 = 225 by
      rw [min_eq_left (by norm_num)]; norm_num]
    exact jsMod_eq_self (by norm_num) (by norm_num)
  refine ⟨hm, ho, ?_, ?_⟩
  · unfold bugUpdateIdleDeg
    rw [hm, ho, if_neg]
    rw [not_lt, show (45 : ℚ) - 0 = 45 by norm_num,
      show (225 : ℚ) - 0 = 225 by norm_num,
      abs_of_nonneg (by norm_num : (0 : ℚ) ≤ 45),
      abs_of_nonneg (by norm_num : (0 : ℚ) ≤ 225)]
    norm_num
  · rw [show (45 : ℚ) - 0 = 45 by norm_num,
      show (225 : ℚ) - 0 = 225 by norm_num,
      abs_of_nonneg (by norm_num : (0 : ℚ) ≤ 45),
      abs_of_nonneg (by norm_num : (0 : ℚ) ≤ 225)]
    norm_num

/-- C2 (amended): `updateIdleDeg` sets the Bug's idleDeg to one of the two
candidate rest positions (the midpoint of the two Arrows' idle angles and its
180°-opposite, both reduced modulo 360) — namely to the candidate at the
LARGER absolute numeric difference from Arrow1's idle angle, the opposite
candidate on ties, i.e. the farther of the two, not the closer. -/
theorem bugUpdateIdleDeg_picks_farther (a1 a2 : ℚ) :
    (bugUpdateIdleDeg a1 a2 = midCandidate a1 a2 ∨
      bugUpdateIdleDeg a1 a2 = oppCandidate a1 a2) ∧
    |bugUpdateIdleDeg a1 a2 - a1| =
      max |midCandidate a1 a2 - a1| |oppCandidate a1 a2 - a1| := by
  unfold bugUpdateIdleDeg
  split_ifs with h
  · exact ⟨Or.inl rfl, (max_eq_left h.le).symm⟩
  · exact ⟨Or.inr rfl, (max_eq_right (not_lt.mp h)).symm⟩

theorem overWindow_iff (bug : BugState) (a1 a2 a : ArrowState) :
    overWindow bug a1 a2 a = true ↔
      |a.rotationDeg - bug.rotationDeg| <
        max a1.rotationSpeed a2.rotationSpeed + bug.rotationSpeed := by
  unfold overWindow
  rw [Bool.and_eq_true, decide_eq_true_eq, decide_eq_true_eq, abs_sub_lt_iff]
  constructor
  · rintro ⟨h1, h2⟩
    exact ⟨by linarith, by linarith⟩
  · rintro ⟨h1, h2⟩
    exact ⟨by linarith, by linarith⟩

/-- C3 (amended): an Arrow is collected by `isOverArrow` iff the Bug is
airborne (`isFlying` non-zero) and that Arrow's rotation angle lies strictly
within ± (the LARGER of the two Arrows' `rotationSpeed`s, plus the Bug's
`rotationSpeed`) of the Bug's rotation angle — the same window, built from
the maximum of both arrow speeds, is used for both arrows. -/
theorem isOverArrow_mem_iff (bug : BugState) (a1 a2 : ArrowState) :
    (ArrowId.one ∈ isOverArrow bug a1 a2 ↔
      bug.isFlying ≠ 0 ∧
      |a1.rotationDeg - bug.rotationDeg| <
        max a1.rotationSpeed a2.rotationSpeed + bug.rotationSpeed) ∧
    (ArrowId.two ∈ isOverArrow bug a1 a2 ↔
      bug.isFlying ≠ 0 ∧
      |a2.rotationDeg - bug.rotationDeg| <
        max a1.rotationSpeed a2.rotationSpeed + bug.rotationSpeed) := by
  unfold isOverArrow
  rcases Bool.eq_false_or_eq_true (overWindow bug a1 a2 a1) with hw1 | hw1 <;>
    rcases Bool.eq_false_or_eq_true (overWindow bug a1 a2 a2) with hw2 | hw2 <;>
      rcases eq_or_ne bug.isFlying 0 with hf | hf <;>
        simp_all [← overWindow_iff bug a1 a2 a1, ← overWindow_iff bug a1 a2 a2]

/-- C3 counterexample: with arrow speeds 1 and 1.8 and bug speed 1, an arrow1
at angle 2.5 IS collected by the code (window `max(1, 1.8) + 1 = 2.8`),
although 2.5 does not lie within the claim's window ± (arrow1's own speed
plus the bug's speed) = ± 2. -/
theorem isOverArrow_counterexample :
    isOverArrow
      { rotationDeg := 0, idleDeg := 0, direction := 1, rotationSpeed := 1,
        isFlying := 1, gravity := -9/2000, jumpSpeed := 0, anchorY := 5,
        groundedAnchorY := 1, currentState := BugAnim.jump,
        wereOverArrow := false }
      { rotationDeg := 5/2, rotationSpeed := 1, idleDeg := 0,
        idleDirection := 1, direction := 1 }
      { rotationDeg := 100, rotationSpeed := 9/5, idleDeg := 0,
        idleDirection := -1, direction := -1 }
      = [ArrowId.one] ∧
    ¬(|(5/2 : ℚ) - 0| < 1 + 1) := by
  constructor
  · unfold isOverArrow overWindow
    rw [max_eq_right (by norm_num : (1 : ℚ) ≤ 9/5)]
    norm_num
  · rw [show (5/2 : ℚ) - 0 = 5/2 by norm_num,
      abs_of_nonneg (by norm_num : (0 : ℚ) ≤ 5/2)]
    norm_num

theorem angDist_case₁ {a b : ℚ} (h0 : 0 ≤ a - b) (h1 : a - b < 360) :
    angDist a b = min (a - b) (360 - (a - b)) := by
  unfold angDist
  rw [mathMod_eq_self h0 h1]

theorem angDist_case₂ {a b : ℚ} (h0 : -360 ≤ a - b) (h1 : a - b < 0) :
    angDist a b = min (a - b + 360) (-(a - b)) := by
  unfold angDist
  rw [mathMod_neg_eq h0 h1]
  ring_nf

theorem angDist_case₃ {a b : ℚ} (h0 : -720 ≤ a - b) (h1 : a - b < -360) :
    angDist a b = min (a - b + 720) (-(a - b) - 360) := by
  unfold angDist
  rw [show a - b = (a - b + 360) + -360 by ring, ← mathMod_add_cycle,
    show a - b + 360 + -360 + 360 = a - b + 360 by ring,
    mathMod_neg_eq (by linarith) (by linarith)]
  ring_nf

theorem angDist_case₄ {a b : ℚ} (h0 : 360 ≤ a - b) (h1 : a - b < 720) :
    angDist a b = min (a - b - 360) (720 - (a - b)) := by
  unfold angDist
  rw [show a - b = (a - b - 360) + 360 by ring, mathMod_add_cycle,
    mathMod_eq_self (by linarith) (by linarith)]
  ring_nf

theorem convergeDir_up {r d : ℚ} (h1 : r < d) (h2 : d - r ≤ 180) :
    convergeDir r d = 1 := by
  unfold convergeDir qSign
  rw [abs_of_nonneg (by linarith : (0 : ℚ) ≤ d - r),
    if_neg (by linarith), if_pos (by linarith)]

theorem convergeDir_down {r d : ℚ} (h1 : d < r) (h2 : r - d ≤ 180) :
    convergeDir r d = -1 := by
  unfold convergeDir qSign
  rw [abs_of_nonpos (by linarith : d - r ≤ 0),
    if_neg (by linarith), if_neg (by linarith), if_pos (by linarith)]

theorem convergeDir_wrapDown {r d : ℚ} (h : d - r > 180) :
    convergeDir r d = -1 := by
  unfold convergeDir qSign
  rw [abs_of_nonneg (by linarith : (0 : ℚ) ≤ d - r),
    if_pos (by linarith), if_pos (by linarith)]

theorem convergeDir_wrapUp {r d : ℚ} (h : r - d > 180) :
    convergeDir r d = 1 := by
  unfold convergeDir qSign
  rw [abs_of_nonpos (by linarith : d - r ≤ 0), if_pos (by linarith),
    if_neg (by linarith), if_pos (by linarith)]
  norm_num

theorem convergeFirst_of_le {r d : ℚ} (h1 : r ≤ d) : convergeFirst r d = r := by
  unfold convergeFirst
  rw [if_neg (not_lt.mpr h1)]

theorem convergeFirst_down {r d : ℚ} (h1 : d < r) (h2 : r - d ≤ 180) :
    convergeFirst r d = max (r - 2) d := by
  unfold convergeFirst
  rw [convergeDir_down h1 h2, if_pos h1, show r + -1 * 2 = r - 2 by ring]
  split_ifs with h4
  · exact (max_eq_right (by linarith)).symm
  · exact (max_eq_left (by linarith)).symm

theorem convergeFirst_wrapUp {r d : ℚ} (h : r - d > 180) :
    convergeFirst r d = r + 2 := by
  unfold convergeFirst
  rw [convergeDir_wrapUp h, if_pos (by linarith : d < r),
    show r + 1 * 2 = r + 2 by ring, if_neg (by linarith : ¬ r + 2 < d)]

theorem convergeStep_eq_self {r d : ℚ} (h : r = d) : convergeStep r d = r := by
  subst h
  unfold convergeStep
  rw [convergeFirst_of_le le_rfl, if_neg (lt_irrefl r)]

theorem convergeStep_up {r d : ℚ} (h1 : r < d) (h2 : d - r ≤ 180) :
    convergeStep r d = min (r + 2) d := by
  unfold convergeStep
  rw [convergeFirst_of_le h1.le, if_pos h1, convergeDir_up h1 h2,
    show r + 1 * 2 = r + 2 by ring]
  split_ifs with h4
  · exact (min_eq_right (by linarith)).symm
  · exact (min_eq_left (by linarith)).symm

theorem convergeStep_down {r d : ℚ} (h1 : d < r) (h2 : r - d ≤ 180) :
    convergeStep r d = max (r - 2) d := by
  unfold convergeStep
  rw [convergeFirst_down h1 h2, if_neg (not_lt.mpr (le_max_right _ _))]

theorem convergeStep_wrapDown {r d : ℚ} (h : d - r > 180) :
    convergeStep r d = r - 2 := by
  unfold convergeStep
  rw [convergeFirst_of_le (by linarith : r ≤ d), if_pos (by linarith : r < d),
    convergeDir_wrapDown h, show r + -1 * 2 = r - 2 by ring,
    if_neg (by linarith : ¬ r - 2 > d)]

theorem convergeStep_wrapUp {r d : ℚ} (h : r - d > 180) :
    convergeStep r d = r + 2 := by
  unfold convergeStep
  rw [convergeFirst_wrapUp h, if_neg (by linarith : ¬ r + 2 < d)]

theorem convergeStep_bounds {r d : ℚ} (h0 : 0 ≤ r) (h1 : r < 360)
    (h2 : 0 ≤ d) (h3 : d < 360) :
    -2 ≤ convergeStep r d ∧ convergeStep r d < 362 := by
  rcases lt_trichotomy r d with h | h | h
  · by_cases hw : d - r ≤ 180
    · rw [convergeStep_up h hw]
      exact ⟨le_min (by linarith) (by linarith),
        lt_of_le_of_lt (min_le_right _ _) (by linarith)⟩
    · rw [convergeStep_wrapDown (by linarith)]
      exact ⟨by linarith, by linarith⟩
  · rw [convergeStep_eq_self h]
    exact ⟨by linarith, by linarith⟩
  · by_cases hw : r - d ≤ 180
    · rw [convergeStep_down h hw]
      exact ⟨le_trans (by linarith) (le_max_left _ _),
        max_lt (by linarith) (by linarith)⟩
    · rw [convergeStep_wrapUp (by linarith)]
      exact ⟨by linarith, by linarith⟩

/-- C6 (amended): in the Converging state with a fixed idle target (both
angles already in `[0,360)`, as the top-of-update normalization and the idle
recomputation guarantee), one update step behaves as follows.  When the
shorter arc from `rotationDeg` to `idleDeg` does not cross the 0°/360°
boundary (`|idleDeg - rotationDeg| <= 180`), the entity moves 2° toward
`idleDeg`, clamps to land exactly on it once within the step, never leaves
the segment between the two angles, and the unsigned angular distance
decreases by exactly `min 2 dist` (hence is non-increasing).  When the
shorter arc crosses the boundary (`|idleDeg - rotationDeg| > 180`), the full
2° step is taken but the overshoot clamp compares unwrapped values and is
ineffective: the new distance is `|dist - 2|`, so the entity can move PAST
the idle target and the distance can increase (exactly when `dist < 1`). -/
theorem convergeStep_behavior (r d : ℚ) (h0 : 0 ≤ r) (h1 : r < 360)
    (h2 : 0 ≤ d) (h3 : d < 360) :
    (∀ st : ArrowState, st.rotationDeg = r →
      (arrowUpdate st true d).rotationDeg = convergeStep r d) ∧
    (r = d → convergeStep r d = r) ∧
    (|d - r| ≤ 180 →
      min r d ≤ convergeStep r d ∧ convergeStep r d ≤ max r d ∧
      angDist (convergeStep r d) d = angDist r d - min 2 (angDist r d)) ∧
    (|d - r| > 180 →
      ((r < d → convergeStep r d = r - 2) ∧
       (d < r → convergeStep r d = r + 2)) ∧
      angDist (convergeStep r d) d = |angDist r d - 2|) := by
  refine ⟨?_, convergeStep_eq_self, ?_, ?_⟩
  · intro st hst
    show convergeStep (normalizeDeg st.rotationDeg) d = convergeStep r d
    rw [hst, normalizeDeg_eq_self h0 h1]
  · intro habs
    rcases lt_trichotomy r d with hlt | heq | hgt
    · have hd : d - r ≤ 180 := by
        rwa [abs_of_nonneg (by linarith : (0 : ℚ) ≤ d - r)] at habs
      have hD : angDist r d = d - r := by
        rw [angDist_case₂ (by linarith) (by linarith),
          min_eq_right (by linarith)]
        ring
      rw [convergeStep_up hlt hd, hD, min_eq_left hlt.le, max_eq_right hlt.le]
      refine ⟨le_min (by linarith) hlt.le, min_le_right _ _, ?_⟩
      · rcases le_or_lt (r + 2) d with hc | hc
        · rw [min_eq_left hc]
          rcases eq_or_lt_of_le hc with he | hlt2
          · rw [he, angDist_case₁ (by linarith) (by linarith),
              min_eq_left (by linarith), min_eq_left (by linarith)]
            linarith
          · rw [angDist_case₂ (by linarith) (by linarith),
              min_eq_right (by linarith), min_eq_left (by linarith)]
            ring
        · rw [min_eq_right (by linarith),
            angDist_case₁ (by linarith) (by linarith),
            min_eq_left (by linarith), min_eq_right (by linarith)]
          ring
    · rw [convergeStep_eq_self heq, heq]
      have hD : angDist d d = 0 := by
        rw [angDist_case₁ (by linarith) (by linarith),
          min_eq_left (by linarith)]
        ring
      rw [hD]
      refine ⟨min_le_right _ _, le_max_right _ _, ?_⟩
      rw [min_eq_right (by linarith)]
      ring
    · have hd : r - d ≤ 180 := by
        rwa [abs_of_nonpos (by linarith : d - r ≤ 0), neg_sub] at habs
      have hD : angDist r d = r - d := by
        rw [angDist_case₁ (by linarith) (by linarith),
          min_eq_left (by linarith)]
      rw [convergeStep_down hgt hd, hD, min_eq_right hgt.le, max_eq_left hgt.le]
      refine ⟨le_max_right _ _, max_le (by linarith) hgt.le, ?_⟩
      · rcases le_or_lt d (r - 2) with hc | hc
        · rw [max_eq_left hc]
          rw [angDist_case₁ (by linarith) (by linarith),
            min_eq_left (by linarith), min_eq_left (by linarith)]
          ring
        · rw [max_eq_right (by linarith)]
          have hD2 : angDist d d = 0 := by
            rw [angDist_case₁ (by linarith) (by linarith),
              min_eq_left (by linarith)]
            ring
          rw [hD2, min_eq_right (by linarith)]
          ring
  · intro habs
    rcases lt_trichotomy r d with hlt | heq | hgt
    · have hd : d - r > 180 := by
        rwa [abs_of_nonneg (by linarith : (0 : ℚ) ≤ d - r)] at habs
      have hD : angDist r d = 360 - (d - r) := by
        rw [angDist_case₂ (by linarith) (by linarith),
          min_eq_left (by linarith)]
        ring
      rw [convergeStep_wrapDown hd, hD]
      refine ⟨⟨fun _ => rfl, fun hdr => absurd hdr (by linarith)⟩, ?_⟩
      rcases le_or_lt (-360 : ℚ) (r - 2 - d) with hx | hx
      · rw [angDist_case₂ (by linarith) (by linarith),
          min_eq_left (by linarith), abs_of_nonneg (by linarith)]
        ring
      · rw [angDist_case₃ (by linarith) (by linarith),
          min_eq_right (by linarith), abs_of_nonpos (by linarith)]
        ring
    · exfalso
      rw [heq] at habs
      simp at habs
      linarith
    · have hd : r - d > 180 := by
        rwa [abs_of_nonpos (by linarith : d - r ≤ 0), neg_sub] at habs
      have hD : angDist r d = 360 - (r - d) := by
        rw [angDist_case₁ (by linarith) (by linarith),
          min_eq_right (by linarith)]
      rw [convergeStep_wrapUp hd, hD]
      refine ⟨⟨fun hdr => absurd hdr (by linarith), fun _ => rfl⟩, ?_⟩
      rcases lt_or_le (r + 2 - d) 360 with hx | hx
      · rw [angDist_case₁ (by linarith) (by linarith),
          min_eq_right (by linarith), abs_of_nonneg (by linarith)]
        ring
      · rw [angDist_case₄ (by linarith) (by linarith),
          min_eq_left (by linarith), abs_of_nonpos (by linarith)]
        ring

/-- Witness for C6's amended theorem at `rotationDeg = 10`, `idleDeg = 0`. -/
theorem convergeStep_behavior_witness :
    (0 ≤ (10 : ℚ)) ∧ ((10 : ℚ) < 360) ∧ (0 ≤ (0 : ℚ)) ∧ ((0 : ℚ) < 360) ∧
    ((∀ st : ArrowState, st.rotationDeg = 10 →
        (arrowUpdate st true 0).rotationDeg = convergeStep 10 0) ∧
      ((10 : ℚ) = 0 → convergeStep 10 0 = 10) ∧
      (|(0 : ℚ) - 10| ≤ 180 →
        min (10 : ℚ) 0 ≤ convergeStep 10 0 ∧
        convergeStep 10 0 ≤ max (10 : ℚ) 0 ∧
        angDist (convergeStep 10 0) 0 =
          angDist 10 0 - min 2 (angDist 10 0)) ∧
      (|(0 : ℚ) - 10| > 180 →
        (((10 : ℚ) < 0 → convergeStep 10 0 = 10 - 2) ∧
         ((0 : ℚ) < 10 → convergeStep 10 0 = 10 + 2)) ∧
        angDist (convergeStep 10 0) 0 = |angDist 10 0 - 2|)) :=
  ⟨by norm_num, by norm_num, le_rfl, by norm_num,
   convergeStep_behavior 10 0 (by norm_num) (by norm_num) (by norm_num)
     (by norm_num)⟩

/-- C6 counterexample: at `rotationDeg = 359.9`, `idleDeg = 0.5` (angular
distance 0.6, shorter arc across the 0/360 boundary) the converging step
moves to 361.9, overshooting past the idle target, and the unsigned angular
distance INCREASES from 0.6 to 1.4 — refuting both the "non-increasing" and
the "never moves past idleDeg" parts of the claim. -/
theorem convergeStep_counterexample :
    convergeStep (3599/10) (1/2) = 3619/10 ∧
      angDist (3599/10) (1/2) = 3/5 ∧
      angDist (3619/10) (1/2) = 7/5 ∧
      ¬(angDist (3619/10) (1/2) ≤ angDist (3599/10) (1/2)) := by
  have h1 : convergeStep (3599/10) (1/2) = 3599/10 + 2 :=
    convergeStep_wrapUp (by norm_num)
  have h2 : angDist (3599/10) (1/2) = 3/5 := by
    rw [angDist_case₁ (by norm_num) (by norm_num), min_eq_right (by norm_num)]
    norm_num
  have h3 : angDist (3619/10) (1/2) = 7/5 := by
    rw [angDist_case₄ (by norm_num) (by norm_num), min_eq_left (by norm_num)]
    norm_num
  exact ⟨by rw [h1]; norm_num, h2, h3, by rw [h2, h3]; norm_num⟩

theorem bugUpdate_rotationDeg (st : BugState) (c : BugCtx) :
    (bugUpdate st c).1.rotationDeg = (bugConverge st c).rotationDeg := by
  unfold bugUpdate bugKinematics bugPhysics
  split_ifs <;> rfl

theorem bugConverge_rotationDeg (st : BugState) (c : BugCtx) :
    (bugConverge st c).rotationDeg =
      if c.gameOver then
        convergeStep (normalizeDeg st.rotationDeg)
          (bugUpdateIdleDeg c.arrow1.idleDeg c.arrow2.idleDeg)
      else normalizeDeg st.rotationDeg + st.rotationSpeed * st.direction := by
  unfold bugConverge
  split_ifs <;> rfl

theorem arrowUpdate_rotationDeg (st : ArrowState) (go : Bool) (d : ℚ) :
    (arrowUpdate st go d).rotationDeg =
      if go then convergeStep (normalizeDeg st.rotationDeg) d
      else normalizeDeg st.rotationDeg + st.rotationSpeed * st.direction := by
  unfold arrowUpdate
  split_ifs <;> rfl

theorem bugUpdateIdleDeg_range {a1 a2 : ℚ} (h1 : 0 ≤ a1) (h2 : 0 ≤ a2) :
    0 ≤ bugUpdateIdleDeg a1 a2 ∧ bugUpdateIdleDeg a1 a2 < 360 := by
  have hmin : 0 ≤ min a1 a2 := le_min h1 h2
  have habs : 0 ≤ |a1 - a2| := abs_nonneg _
  unfold bugUpdateIdleDeg midCandidate oppCandidate
  split_ifs with h
  · exact ⟨(jsMod_nonneg_bounds (by linarith)).1,
      (jsMod_nonneg_bounds (by linarith)).2⟩
  · exact ⟨(jsMod_nonneg_bounds (by linarith)).1,
      (jsMod_nonneg_bounds (by linarith)).2⟩

/-- C4 (amended): `rotationDeg` is normalized into `[0, 360)` at the TOP of
each update, before the frame's angular step — not after it.  Immediately
after a single `update()` the value can leave `[0, 360)` by at most the
frame's step (the entity's `rotationSpeed` while spinning, 2° while
converging): it always lies in `[-(max rotationSpeed 2), 360 + max
rotationSpeed 2)`, and the next update's top-of-frame normalization returns
it to `[0, 360)`. -/
theorem rotationDeg_range_after_update :
    (∀ r : ℚ, 0 ≤ normalizeDeg r ∧ normalizeDeg r < 360) ∧
    (∀ (st : ArrowState) (go : Bool) (d : ℚ),
      0 ≤ st.rotationSpeed → (st.direction = 1 ∨ st.direction = -1) →
      0 ≤ d → d < 360 →
      -(max st.rotationSpeed 2) ≤ (arrowUpdate st go d).rotationDeg ∧
        (arrowUpdate st go d).rotationDeg < 360 + max st.rotationSpeed 2) ∧
    (∀ (st : BugState) (c : BugCtx),
      0 ≤ st.rotationSpeed → (st.direction = 1 ∨ st.direction = -1) →
      0 ≤ c.arrow1.idleDeg → 0 ≤ c.arrow2.idleDeg →
      -(max st.rotationSpeed 2) ≤ (bugUpdate st c).1.rotationDeg ∧
        (bugUpdate st c).1.rotationDeg < 360 + max st.rotationSpeed 2) := by
  refine ⟨normalizeDeg_bounds, ?_, ?_⟩
  · intro st go d hsp hdir hd0 hd1
    have hn := normalizeDeg_bounds st.rotationDeg
    have hmax1 := le_max_left st.rotationSpeed 2
    have hmax2 := le_max_right st.rotationSpeed (2 : ℚ)
    rw [arrowUpdate_rotationDeg]
    split_ifs with hgo
    · have hb := convergeStep_bounds hn.1 hn.2 hd0 hd1
      exact ⟨by linarith, by linarith⟩
    · rcases hdir with h | h <;> rw [h] <;> exact ⟨by linarith, by linarith⟩
  · intro st c hsp hdir h1 h2
    have hn := normalizeDeg_bounds st.rotationDeg
    have hmax1 := le_max_left st.rotationSpeed 2
    have hmax2 := le_max_right st.rotationSpeed (2 : ℚ)
    rw [bugUpdate_rotationDeg, bugConverge_rotationDeg]
    split_ifs with hgo
    · have hd := bugUpdateIdleDeg_range h1 h2
      have hb := convergeStep_bounds hn.1 hn.2 hd.1 hd.2
      exact ⟨by linarith, by linarith⟩
    · rcases hdir with h | h <;> rw [h] <;> exact ⟨by linarith, by linarith⟩

/-- Witness for C4's amended theorem: one arrow update and one bug update at
concrete states. -/
theorem rotationDeg_range_witness :
    ((0 : ℚ) ≤ 1) ∧ ((1 : ℚ) = 1 ∨ (1 : ℚ) = -1) ∧ ((0 : ℚ) ≤ 0) ∧
      ((0 : ℚ) < 360) ∧
    (-(max (1 : ℚ) 2) ≤
        (arrowUpdate
          { rotationDeg := 50, rotationSpeed := 1, idleDeg := 0,
            idleDirection := 1, direction := 1 } false 0).rotationDeg ∧
      (arrowUpdate
          { rotationDeg := 50, rotationSpeed := 1, idleDeg := 0,
            idleDirection := 1, direction := 1 } false 0).rotationDeg <
        360 + max (1 : ℚ) 2) :=
  ⟨by norm_num, Or.inl rfl, le_rfl, by norm_num,
   rotationDeg_range_after_update.2.1
     { rotationDeg := 50, rotationSpeed := 1, idleDeg := 0,
       idleDirection := 1, direction := 1 } false 0
     (by norm_num) (Or.inl rfl) le_rfl (by norm_num)⟩

/-- C4 counterexample: an arrow at `rotationDeg = 359.5` with speed 1 and
direction 1, during active play, ends the update at 360.5 — outside
`[0, 360)`; the claim's normalization happens at the top of the NEXT update,
not at the end of this one. -/
theorem rotationDeg_after_update_counterexample :
    (arrowUpdate
      { rotationDeg := 719/2, rotationSpeed := 1, idleDeg := 0,
        idleDirection := 1, direction := 1 } false 0).rotationDeg = 721/2 ∧
    ¬((721/2 : ℚ) < 360) := by
  constructor
  · rw [arrowUpdate_rotationDeg]
    show normalizeDeg (719/2) + 1 * 1 = 721/2
    rw [normalizeDeg_eq_self (by norm_num) (by norm_num)]
    norm_num
  · norm_num

theorem bugUpdate_fst_isOverArrow (st : BugState) (c : BugCtx) :
    isOverArrow (bugUpdate st c).1 c.arrow1 c.arrow2 =
      isOverArrow (bugKinematics st c) c.arrow1 c.arrow2 := by
  unfold bugUpdate
  split_ifs <;> rfl

theorem bugUpdate_wereOverArrow (st : BugState) (c : BugCtx) :
    (bugUpdate st c).1.wereOverArrow =
      decide (isOverArrow (bugKinematics st c) c.arrow1 c.arrow2 ≠ []) := by
  unfold bugUpdate
  split_ifs with h <;> simp [h]

theorem bugUpdate_snd (st : BugState) (c : BugCtx) :
    (bugUpdate st c).2 =
      if isOverArrow (bugKinematics st c) c.arrow1 c.arrow2 ≠ [] ∧
          st.wereOverArrow = false
      then isOverArrow (bugKinematics st c) c.arrow1 c.arrow2 else [] := by
  unfold bugUpdate
  split_ifs <;> simp_all

/-- C8: the `bug_overarrow` events fire only on the frame where the Bug's
overlap condition becomes true: starting from a frame with the edge flag
clear (not overlapping), three consecutive updates that each find the Bug
over at least one arrow emit events exactly on the first of those frames
(one event per overlapped arrow), and none on frames 2 and 3. -/
theorem bug_overarrow_edge_trigger (s0 : BugState) (c1 c2 c3 : BugCtx)
    (h0 : s0.wereOverArrow = false)
    (h1 : isOverArrow (bugUpdate s0 c1).1 c1.arrow1 c1.arrow2 ≠ [])
    (h2 : isOverArrow (bugUpdate (bugUpdate s0 c1).1 c2).1
        c2.arrow1 c2.arrow2 ≠ [])
    (_h3 : isOverArrow (bugUpdate (bugUpdate (bugUpdate s0 c1).1 c2).1 c3).1
        c3.arrow1 c3.arrow2 ≠ []) :
    (bugUpdate s0 c1).2 = isOverArrow (bugUpdate s0 c1).1 c1.arrow1 c1.arrow2 ∧
    (bugUpdate s0 c1).2 ≠ [] ∧
    (bugUpdate (bugUpdate s0 c1).1 c2).2 = [] ∧
    (bugUpdate (bugUpdate (bugUpdate s0 c1).1 c2).1 c3).2 = [] := by
  rw [bugUpdate_fst_isOverArrow] at h1 h2
  have w1 : (bugUpdate s0 c1).1.wereOverArrow = true := by
    rw [bugUpdate_wereOverArrow]
    exact decide_eq_true h1
  have w2 : (bugUpdate (bugUpdate s0 c1).1 c2).1.wereOverArrow = true := by
    rw [bugUpdate_wereOverArrow]
    exact decide_eq_true h2
  refine ⟨?_, ?_, ?_, ?_⟩
  · rw [bugUpdate_snd, bugUpdate_fst_isOverArrow, if_pos ⟨h1, h0⟩]
  · rw [bugUpdate_snd, if_pos ⟨h1, h0⟩]
    exact h1
  · rw [bugUpdate_snd, if_neg]
    rintro ⟨-, hw⟩
    rw [w1] at hw
    exact Bool.noConfusion hw
  · rw [bugUpdate_snd, if_neg]
    rintro ⟨-, hw⟩
    rw [w2] at hw
    exact Bool.noConfusion hw

/-- Witness for C8: a concrete 3-frame run continuously over arrow1. -/
theorem bug_overarrow_edge_trigger_witness :
    c8Bug.wereOverArrow = false ∧
    isOverArrow (bugUpdate c8Bug c8Ctx).1 c8Ctx.arrow1 c8Ctx.arrow2 ≠ [] ∧
    isOverArrow (bugUpdate (bugUpdate c8Bug c8Ctx).1 c8Ctx).1
      c8Ctx.arrow1 c8Ctx.arrow2 ≠ [] ∧
    isOverArrow
      (bugUpdate (bugUpdate (bugUpdate c8Bug c8Ctx).1 c8Ctx).1 c8Ctx).1
      c8Ctx.arrow1 c8Ctx.arrow2 ≠ [] ∧
    ((bugUpdate c8Bug c8Ctx).2 =
        isOverArrow (bugUpdate c8Bug c8Ctx).1 c8Ctx.arrow1 c8Ctx.arrow2 ∧
      (bugUpdate c8Bug c8Ctx).2 ≠ [] ∧
      (bugUpdate (bugUpdate c8Bug c8Ctx).1 c8Ctx).2 = [] ∧
      (bugUpdate (bugUpdate (bugUpdate c8Bug c8Ctx).1 c8Ctx).1 c8Ctx).2 = []) := by
  have e1 : isOverArrow (bugUpdate c8Bug c8Ctx).1 c8Ctx.arrow1 c8Ctx.arrow2 ≠
      [] := by
    norm_num [c8Bug, c8Ctx, bugUpdate, bugKinematics, bugPhysics, bugConverge,
      isOverArrow, overWindow, normalizeDeg, jsMod, qTrunc, max_def]
  have e2 : isOverArrow (bugUpdate (bugUpdate c8Bug c8Ctx).1 c8Ctx).1
      c8Ctx.arrow1 c8Ctx.arrow2 ≠ [] := by
    norm_num [c8Bug, c8Ctx, bugUpdate, bugKinematics, bugPhysics, bugConverge,
      isOverArrow, overWindow, normalizeDeg, jsMod, qTrunc, max_def]
  have e3 : isOverArrow
      (bugUpdate (bugUpdate (bugUpdate c8Bug c8Ctx).1 c8Ctx).1 c8Ctx).1
      c8Ctx.arrow1 c8Ctx.arrow2 ≠ [] := by
    norm_num [c8Bug, c8Ctx, bugUpdate, bugKinematics, bugPhysics, bugConverge,
      isOverArrow, overWindow, normalizeDeg, jsMod, qTrunc, max_def]
  exact ⟨rfl, e1, e2, e3,
    bug_overarrow_edge_trigger c8Bug c8Ctx c8Ctx c8Ctx rfl e1 e2 e3⟩

/-- C5: on every multiple-of-5 score the color-scheme index advances to the
next index, wrapping around the pool but never landing on index 0, and a
transition from the previous scheme to the new one is started; on every
multiple-of-10 score both arrows' `rotationSpeed` grows by exactly 0.1; in
particular a round reaching score 10 from the baseline speeds (1, 1.8) ends
with speeds exactly 0.1 above the baseline. -/
theorem score_ramps :
    (∀ (s : ℕ) (g : GameRampState), s % 5 = 0 →
      (onScoreAdd s g).colorSchemeIdx = advanceColorSchemeIdx g.colorSchemeIdx ∧
      (onScoreAdd s g).colorSchemeIdx ≠ 0 ∧
      ((onScoreAdd s g).colorSchemeIdx = (g.colorSchemeIdx + 1) % pool.length ∨
        ((g.colorSchemeIdx + 1) % pool.length = 0 ∧
          (onScoreAdd s g).colorSchemeIdx = 1)) ∧
      (onScoreAdd s g).transition =
        some (g.colorSchemeIdx, advanceColorSchemeIdx g.colorSchemeIdx)) ∧
    (∀ (s : ℕ) (g : GameRampState), s % 5 ≠ 0 →
      (onScoreAdd s g).colorSchemeIdx = g.colorSchemeIdx ∧
      (onScoreAdd s g).transition = g.transition) ∧
    (∀ (s : ℕ) (g : GameRampState), s % 10 = 0 →
      (onScoreAdd s g).arrow1Speed = g.arrow1Speed + 1/10 ∧
      (onScoreAdd s g).arrow2Speed = g.arrow2Speed + 1/10) ∧
    (∀ (s : ℕ) (g : GameRampState), s % 10 ≠ 0 →
      (onScoreAdd s g).arrow1Speed = g.arrow1Speed ∧
      (onScoreAdd s g).arrow2Speed = g.arrow2Speed) ∧
    (runScoreEvents ⟨1, none, 1, 9/5⟩ 10).arrow1Speed = 1 + 1/10 ∧
    (runScoreEvents ⟨1, none, 1, 9/5⟩ 10).arrow2Speed = 9/5 + 1/10 := by
  have h10idx : ∀ (s : ℕ) (g : GameRampState),
      (onScoreAdd10 s g).colorSchemeIdx = g.colorSchemeIdx := by
    intro s g
    unfold onScoreAdd10
    split_ifs <;> rfl
  have h10tr : ∀ (s : ℕ) (g : GameRampState),
      (onScoreAdd10 s g).transition = g.transition := by
    intro s g
    unfold onScoreAdd10
    split_ifs <;> rfl
  have h5sp1 : ∀ (s : ℕ) (g : GameRampState),
      (onScoreAdd5 s g).arrow1Speed = g.arrow1Speed := by
    intro s g
    unfold onScoreAdd5
    split_ifs <;> rfl
  have h5sp2 : ∀ (s : ℕ) (g : GameRampState),
      (onScoreAdd5 s g).arrow2Speed = g.arrow2Speed := by
    intro s g
    unfold onScoreAdd5
    split_ifs <;> rfl
  have h5idx : ∀ (s : ℕ) (g : GameRampState), s % 5 = 0 →
      (onScoreAdd5 s g).colorSchemeIdx = advanceColorSchemeIdx g.colorSchemeIdx := by
    intro s g hs
    unfold onScoreAdd5
    rw [if_pos hs]
  have h5tr : ∀ (s : ℕ) (g : GameRampState), s % 5 = 0 →
      (onScoreAdd5 s g).transition =
        some (g.colorSchemeIdx, advanceColorSchemeIdx g.colorSchemeIdx) := by
    intro s g hs
    unfold onScoreAdd5
    rw [if_pos hs]
  have h5idxn : ∀ (s : ℕ) (g : GameRampState), s % 5 ≠ 0 →
      (onScoreAdd5 s g).colorSchemeIdx = g.colorSchemeIdx := by
    intro s g hs
    unfold onScoreAdd5
    rw [if_neg hs]
  have h5trn : ∀ (s : ℕ) (g : GameRampState), s % 5 ≠ 0 →
      (onScoreAdd5 s g).transition = g.transition := by
    intro s g hs
    unfold onScoreAdd5
    rw [if_neg hs]
  have h10sp : ∀ (s : ℕ) (g : GameRampState), s % 10 = 0 →
      (onScoreAdd10 s g).arrow1Speed = g.arrow1Speed + 1/10 ∧
      (onScoreAdd10 s g).arrow2Speed = g.arrow2Speed + 1/10 := by
    intro s g hs
    unfold onScoreAdd10
    rw [if_pos hs]
    exact ⟨rfl, rfl⟩
  have h10spn : ∀ (s : ℕ) (g : GameRampState), s % 10 ≠ 0 →
      (onScoreAdd10 s g).arrow1Speed = g.arrow1Speed ∧
      (onScoreAdd10 s g).arrow2Speed = g.arrow2Speed := by
    intro s g hs
    unfold onScoreAdd10
    rw [if_neg hs]
    exact ⟨rfl, rfl⟩
  have hadv : ∀ idx : ℕ, advanceColorSchemeIdx idx ≠ 0 := by
    intro idx
    unfold advanceColorSchemeIdx
    split_ifs with h
    · rw [h]
      decide
    · exact h
  refine ⟨?_, ?_, ?_, ?_, ?_, ?_⟩
  · intro s g hs
    unfold onScoreAdd
    refine ⟨?_, ?_, ?_, ?_⟩
    · rw [h10idx, h5idx s g hs]
    · rw [h10idx, h5idx s g hs]
      exact hadv _
    · rw [h10idx, h5idx s g hs]
      unfold advanceColorSchemeIdx
      split_ifs with h
      · refine Or.inr ⟨h, ?_⟩
        rw [h]
        decide
      · exact Or.inl rfl
    · rw [h10tr, h5tr s g hs]
  · intro s g hs
    unfold onScoreAdd
    exact ⟨by rw [h10idx, h5idxn s g hs], by rw [h10tr, h5trn s g hs]⟩
  · intro s g hs
    unfold onScoreAdd
    exact ⟨by rw [(h10sp s _ hs).1, h5sp1], by rw [(h10sp s _ hs).2, h5sp2]⟩
  · intro s g hs
    unfold onScoreAdd
    exact ⟨by rw [(h10spn s _ hs).1, h5sp1], by rw [(h10spn s _ hs).2, h5sp2]⟩
  · norm_num [runScoreEvents, List.range_succ, onScoreAdd, onScoreAdd5,
      onScoreAdd10, advanceColorSchemeIdx, pool]
  · norm_num [runScoreEvents, List.range_succ, onScoreAdd, onScoreAdd5,
      onScoreAdd10, advanceColorSchemeIdx, pool]

/-- Witness for C5 at score 5 (scheme advance 1 → 2) and score 10 (speed
ramp) on a concrete game state. -/
theorem score_ramps_witness :
    (5 % 5 = 0) ∧ (10 % 10 = 0) ∧
    ((onScoreAdd 5 ⟨1, none, 1, 9/5⟩).colorSchemeIdx =
        advanceColorSchemeIdx 1 ∧
      (onScoreAdd 5 ⟨1, none, 1, 9/5⟩).colorSchemeIdx ≠ 0 ∧
      ((onScoreAdd 5 ⟨1, none, 1, 9/5⟩).colorSchemeIdx =
          (1 + 1) % pool.length ∨
        ((1 + 1) % pool.length = 0 ∧
          (onScoreAdd 5 ⟨1, none, 1, 9/5⟩).colorSchemeIdx = 1)) ∧
      (onScoreAdd 5 ⟨1, none, 1, 9/5⟩).transition =
        some (1, advanceColorSchemeIdx 1)) ∧
    ((onScoreAdd 10 ⟨2, none, 1, 9/5⟩).arrow1Speed = 1 + 1/10 ∧
      (onScoreAdd 10 ⟨2, none, 1, 9/5⟩).arrow2Speed = 9/5 + 1/10) :=
  ⟨rfl, rfl, score_ramps.1 5 ⟨1, none, 1, 9/5⟩ rfl,
    score_ramps.2.2.1 10 ⟨2, none, 1, 9/5⟩ rfl⟩

/-- C9 (amended): the Bug, Arrows and ScoreBar factories fail immediately
with the thrown error "game is not defined" when invoked without their
owning-game reference — but the Clock factory performs no such check and
constructs successfully. -/
theorem factories_game_guard :
    Bug none = Except.error "game is not defined" ∧
    (∀ mins hours : ℕ,
      Arrows none mins hours = Except.error "game is not defined") ∧
    (∀ stored : Option ℕ,
      ScoreBar none stored = Except.error "game is not defined") ∧
    (∀ x y radius : ℚ, ∃ st : ClockState, Clock none x y radius = Except.ok st) :=
  ⟨rfl, fun _ _ => rfl, fun _ => rfl, fun _ _ _ => ⟨_, rfl⟩⟩

/-- C9 counterexample: invoking the Clock factory without a game reference
does not throw — it returns a fully constructed clock. -/
theorem clock_factory_counterexample :
    Clock none 270 270 100 =
      Except.ok
        { x := 270, y := 270, radius := 100, minRadius := 100,
          maxRadius := 150, scaleSpeed := 5/3, numbersRadius := 200,
          scaleUp := false, hideNumbers := false, numbersOpacity := 1 } := by
  unfold Clock
  norm_num

end BackForth


